import Mathlib

/-!
# WTTP handler (C++ client): response decoding and request construction

A shallow embedding of `src/handlers/cpp/WTTPHandler.cpp` and
`src/handlers/cpp/WTTPHandler.hpp`.

* C++ exceptions are modelled by `Except DecodeError`.
* `Web3::Json`, `Web3::Contract`, `Web3::Signer`, `Web3::toJson` and
  `Web3::toBytes` come from an external library (`<web3/Web3.h>`); they are
  modelled by the small types below.
* `decodeContent` and `validateResponse` are declared in the header but have no
  body in the sources; every definition that uses them takes them as a
  parameter (a function without side effects on the transport).
* Integers are `Nat` / `Int`; the conversion of the `int` of `std::stoi` to a
  `uint16_t` field is `toUInt16`, and `unsigned long` has 64 bits.
* The remote endpoint that stores the resources is not in the sources either;
  the section "The remote endpoint" follows the specification.
-/

namespace WTTP

/-! ## Data model (`WTTPHandler.hpp`) -/

structure RequestLine where
  protocol : String
  path : String
  deriving DecidableEq, Repr

structure RequestHeader where
  accept : List String
  acceptCharset : List String
  acceptLanguage : List String
  ifModifiedSince : Nat
  ifNoneMatch : String
  deriving DecidableEq, Repr

structure GETRequest where
  host : String
  rangeStart : Nat
  rangeEnd : Nat
  deriving DecidableEq, Repr

structure HeaderInfo where
  cache : String
  methods : Nat
  redirect : String
  resourceAdmin : String
  deriving DecidableEq, Repr

structure ResponseLine where
  protocol : String
  code : Nat
  deriving DecidableEq, Repr

structure DataStructure where
  size : Nat
  mimeType : String
  charset : String
  location : String
  deriving DecidableEq, Repr

structure Metadata where
  size : Nat
  version : Nat
  modifiedDate : Nat
  deriving DecidableEq, Repr

structure HEADResponse where
  responseLine : ResponseLine
  headerInfo : HeaderInfo
  metadata : Metadata
  dataStructure : DataStructure
  etag : String
  deriving DecidableEq, Repr

structure GETResponse where
  head : HEADResponse
  body : String
  deriving DecidableEq, Repr

/-! ## Failures -/

/-- The exceptions that can leave the handler: a positional access or a string
conversion that the JSON value does not support, the two exceptions of
`std::stoi` / `std::stoul`, and whatever the two body-less helpers
(`decodeContent`, `validateResponse`) raise. -/
inductive DecodeError where
  | shape
  | invalidArgument
  | outOfRange
  | unsupportedCharset
  | transportRejected
  deriving DecidableEq, Repr

/-! ## The JSON value of the transport -/

/-- Modelled from the spec: `Web3::Json` is declared in the external header
`<web3/Web3.h>`, which is not part of the sources.  The value is a tree of
positional arrays whose leaves are strings (section 4.1 of the specification);
`null` and `num` stand for the leaves that are not strings. -/
inductive Json where
  | null
  | num (n : Int)
  | str (s : String)
  | arr (xs : List Json)
  deriving Repr

/-- Modelled from the spec: `operator[]` of `Web3::Json` with an integer index.
A position that does not exist (the value is not an array, or the array is too
short) is a failure. -/
def Json.index : Json → Nat → Except DecodeError Json
  | Json.arr xs, i =>
    match xs.get? i with
    | some v => Except.ok v
    | none => Except.error DecodeError.shape
  | _, _ => Except.error DecodeError.shape

/-- Modelled from the spec: the conversion of a `Web3::Json` to `std::string`
that the C++ code uses implicitly; only a string leaf converts. -/
def Json.asString : Json → Except DecodeError String
  | Json.str s => Except.ok s
  | _ => Except.error DecodeError.shape

/-- Modelled from the spec: `Web3::Json::empty()`.  The specification reads
`bodyHex.empty()` as "the transport returned an empty body". -/
def Json.empty : Json → Bool
  | Json.null => true
  | Json.num _ => false
  | Json.str s => s.toList.isEmpty
  | Json.arr xs => xs.isEmpty

/-! ## `std::stoi` and `std::stoul` -/

/-- The characters `isspace` accepts in the "C" locale. -/
def isSpace (c : Char) : Bool :=
  c = ' ' || c = '\t' || c = '\n' || c = '\x0b' || c = '\x0c' || c = '\r'

/-- Base-10 value of a run of digit characters, most significant first. -/
def digitsValue (ds : List Char) : Nat :=
  ds.foldl (fun acc c => acc * 10 + (c.toNat - 48)) 0

/-- The scanning that `strtol` and `strtoul` share in base 10: skip leading
white space, read one optional sign, then the longest run of digits.  The
result is `none` when there is no digit at that point, and otherwise the sign
(`true` for `-`) and the magnitude.  Whatever follows the digits is ignored. -/
def scanNumber (s : String) : Option (Bool × Nat) :=
  let cs := s.toList.dropWhile isSpace
  let signed : Bool × List Char :=
    match cs with
    | [] => (false, [])
    | c :: t => if c = '-' then (true, t) else if c = '+' then (false, t) else (false, c :: t)
  let ds := signed.2.takeWhile Char.isDigit
  if ds.isEmpty then none else some (signed.1, digitsValue ds)

/-- `std::stoi(str)`: `std::invalid_argument` when no conversion can be
performed, `std::out_of_range` when the value is outside `int` (32 bits). -/
def stoi (s : String) : Except DecodeError Int :=
  match scanNumber s with
  | none => Except.error DecodeError.invalidArgument
  | some (neg, m) =>
    let v : Int := if neg then -(m : Int) else (m : Int)
    if v < -2147483648 ∨ 2147483647 < v then Except.error DecodeError.outOfRange
    else Except.ok v

/-- `std::stoul(str)` with a 64-bit `unsigned long`: `std::invalid_argument`
when no conversion can be performed, `std::out_of_range` when the magnitude
exceeds `ULONG_MAX`; a leading `-` negates the value modulo `2^64`. -/
def stoul (s : String) : Except DecodeError Nat :=
  match scanNumber s with
  | none => Except.error DecodeError.invalidArgument
  | some (neg, m) =>
    if 18446744073709551615 < m then Except.error DecodeError.outOfRange
    else Except.ok (if neg then (18446744073709551616 - m) % 18446744073709551616 else m)

/-- Conversion of the `int` that `std::stoi` returns to a `uint16_t` field. -/
def toUInt16 (v : Int) : Nat := (v % 65536).toNat

/-! ## `WTTPHandler::processResponse` -/

/-- The list `textBasedTypes` of `processResponse`. -/
def textBasedTypes : List String :=
  ["TEXT_PLAIN", "TEXT_HTML", "TEXT_CSS", "TEXT_JAVASCRIPT",
   "TEXT_XML", "APPLICATION_JSON", "APPLICATION_XML"]

/-- `headArray[i][j]` converted to `std::string`. -/
def field (headArray : Json) (i j : Nat) : Except DecodeError String := do
  let row ← headArray.index i
  let cell ← row.index j
  cell.asString

/-- The aggregate `HEADResponse head{...}` that `processResponse` builds from
`headArray`; the initialisers are evaluated from left to right. -/
def decodeHead (headArray : Json) : Except DecodeError HEADResponse := do
  let protocol ← field headArray 0 0
  let code ← (field headArray 0 1) >>= stoi
  let cache ← field headArray 1 0
  let methods ← (field headArray 1 1) >>= stoi
  let redirect ← field headArray 1 2
  let resourceAdmin ← field headArray 1 3
  let size ← (field headArray 2 0) >>= stoul
  let version ← (field headArray 2 1) >>= stoul
  let modifiedDate ← (field headArray 2 2) >>= stoul
  let dsSize ← (field headArray 3 0) >>= stoul
  let mimeType ← field headArray 3 1
  let charset ← field headArray 3 2
  let location ← field headArray 3 3
  let etag ← (headArray.index 4) >>= Json.asString
  pure {
    responseLine := { protocol := protocol, code := toUInt16 code }
    headerInfo := { cache := cache, methods := toUInt16 methods, redirect := redirect,
                    resourceAdmin := resourceAdmin }
    metadata := { size := size, version := version, modifiedDate := modifiedDate }
    dataStructure := { size := dsSize, mimeType := mimeType, charset := charset,
                       location := location }
    etag := etag }

/-- `WTTPHandler::processResponse`.  `decodeContent` is the private member
function of that name, taken as a parameter. -/
def processResponse (decodeContent : String → String → Except DecodeError String)
    (response : Json) : Except DecodeError GETResponse := do
  let headArray ← response.index 0
  let bodyHex ← response.index 1
  let head ← decodeHead headArray
  if head.responseLine.code = 200 ∨ head.responseLine.code = 206 then
    let mimeType := head.dataStructure.mimeType
    let charset := head.dataStructure.charset
    let isTextBased : Bool := textBasedTypes.contains mimeType
    if isTextBased && !bodyHex.empty then
      let raw ← bodyHex.asString
      let text ← decodeContent raw charset
      return { head := head, body := text }
  let body ← bodyHex.asString
  return { head := head, body := body }

/-! ## Raw results of the expected positional shape -/

/-- The fourteen string leaves of a head array of the expected shape. -/
structure RawHead where
  protocol : String
  code : String
  cache : String
  methods : String
  redirect : String
  resourceAdmin : String
  metaSize : String
  version : String
  modifiedDate : String
  dsSize : String
  mimeType : String
  charset : String
  location : String
  etag : String
  deriving DecidableEq, Repr

/-- The head array `[[protocol, code], [cache, methods, redirect,
resourceAdmin], [size, version, modifiedDate], [size, mimeType, charset,
location], etag]`. -/
def RawHead.toJson (r : RawHead) : Json :=
  Json.arr [
    Json.arr [Json.str r.protocol, Json.str r.code],
    Json.arr [Json.str r.cache, Json.str r.methods, Json.str r.redirect,
              Json.str r.resourceAdmin],
    Json.arr [Json.str r.metaSize, Json.str r.version, Json.str r.modifiedDate],
    Json.arr [Json.str r.dsSize, Json.str r.mimeType, Json.str r.charset,
              Json.str r.location],
    Json.str r.etag]

/-- The raw GET result `[headArray, bodyHex]`. -/
def rawGet (r : RawHead) (body : String) : Json :=
  Json.arr [r.toJson, Json.str body]

/-- A string made only of base-10 digits (at least one). -/
def IsDecimal (s : String) : Prop :=
  s.toList ≠ [] ∧ ∀ c ∈ s.toList, c.isDigit = true

instance (s : String) : Decidable (IsDecimal s) := by
  unfold IsDecimal; infer_instance

/-- The unsigned integer that a string of base-10 digits denotes: the digit at
distance `i` from the right end counts `10 ^ i`. -/
def decimalValue (s : String) : Nat :=
  Nat.ofDigits 10 (s.toList.reverse.map (fun c => c.toNat - 48))

/-- A stand-in for `decodeContent` used at concrete inputs: it drops the
two-character `0x` marker of the raw body, whatever the charset. -/
def dropMarker (raw : String) (_charset : String) : Except DecodeError String :=
  Except.ok (String.mk (raw.toList.drop 2))

/-- A stand-in for `decodeContent` that fails on every input. -/
def alwaysFails (_raw : String) (_charset : String) : Except DecodeError String :=
  Except.error DecodeError.unsupportedCharset

/-- A head array of the expected shape used at concrete inputs: an HTML
resource of 5 bytes, with a given protocol string and status code. -/
def sampleHead (protocol code : String) : RawHead :=
  { protocol := protocol, code := code, cache := "", methods := "2913", redirect := "",
    resourceAdmin := "0x0000000000000000000000000000000000000000",
    metaSize := "5", version := "1", modifiedDate := "1700000000",
    dsSize := "5", mimeType := "TEXT_HTML", charset := "UTF_8", location := "0x0101",
    etag := "0xabc" }

/-- What `sampleHead protocol code` decodes to when `code` denotes `n`. -/
def sampleDecoded (protocol : String) (n : Nat) : HEADResponse :=
  { responseLine := { protocol := protocol, code := n }
    headerInfo := { cache := "", methods := 2913, redirect := "",
                    resourceAdmin := "0x0000000000000000000000000000000000000000" }
    metadata := { size := 5, version := 1, modifiedDate := 1700000000 }
    dataStructure := { size := 5, mimeType := "TEXT_HTML", charset := "UTF_8",
                       location := "0x0101" }
    etag := "0xabc" }

/-- The head that the specification describes for a raw head whose numeric
leaves are decimal strings: every numeric field is the base-10 value of its
string and every string field is copied. -/
def RawHead.decoded (r : RawHead) : HEADResponse :=
  { responseLine := { protocol := r.protocol, code := decimalValue r.code }
    headerInfo := { cache := r.cache, methods := decimalValue r.methods,
                    redirect := r.redirect, resourceAdmin := r.resourceAdmin }
    metadata := { size := decimalValue r.metaSize, version := decimalValue r.version,
                  modifiedDate := decimalValue r.modifiedDate }
    dataStructure := { size := decimalValue r.dsSize, mimeType := r.mimeType,
                       charset := r.charset, location := r.location }
    etag := r.etag }

/-- The numeric leaves of a raw head are decimal strings whose values fit the
fields they go to: 16 bits for `code` and `methods`, 64 bits for the rest. -/
def RawHead.NumericFit (r : RawHead) : Prop :=
  (IsDecimal r.code ∧ decimalValue r.code < 65536) ∧
  (IsDecimal r.methods ∧ decimalValue r.methods < 65536) ∧
  (IsDecimal r.metaSize ∧ decimalValue r.metaSize < 18446744073709551616) ∧
  (IsDecimal r.version ∧ decimalValue r.version < 18446744073709551616) ∧
  (IsDecimal r.modifiedDate ∧ decimalValue r.modifiedDate < 18446744073709551616) ∧
  (IsDecimal r.dsSize ∧ decimalValue r.dsSize < 18446744073709551616)

instance (r : RawHead) : Decidable r.NumericFit := by
  unfold RawHead.NumericFit; infer_instance

/-- A JSON array with fewer than `n` elements. -/
def TooShort (j : Json) (n : Nat) : Prop :=
  ∃ xs, j = Json.arr xs ∧ xs.length < n

/-- The head of `g` with the protocol string of its response line replaced. -/
def GETResponse.withProtocol (g : GETResponse) (p : String) : GETResponse :=
  { g with head := { g.head with responseLine := { g.head.responseLine with protocol := p } } }

/-- A raw GET result with one element too many at three levels: a third
element in the outer array, a sixth in the head array, a third in its first
row.  The fourteen leaves in their usual places are those of
`sampleHead "WTTP/2.0" "200"`. -/
def overlongResponse : Json :=
  Json.arr [
    Json.arr [
      Json.arr [Json.str "WTTP/2.0", Json.str "200", Json.str "surplus"],
      Json.arr [Json.str "", Json.str "2913", Json.str "",
                Json.str "0x0000000000000000000000000000000000000000"],
      Json.arr [Json.str "5", Json.str "1", Json.str "1700000000"],
      Json.arr [Json.str "5", Json.str "TEXT_HTML", Json.str "UTF_8", Json.str "0x0101"],
      Json.str "0xabc",
      Json.str "surplus"],
    Json.str "0x3c703e",
    Json.str "surplus"]

/-! ## The transport and the handler -/

/-- Modelled from the spec: `Web3::Signer` (external library), of which the
handler only reads `address()`. -/
structure Signer where
  address : String
  deriving DecidableEq, Repr

/-- Modelled from the spec: `Web3::Contract` (external library), built from an
address, an ABI and a signer; `address()` returns the address it was built
with. -/
structure Contract where
  address : String
  abi : String
  signer : Signer
  deriving DecidableEq, Repr

/-- One element of the argument sequence handed to the transport.  The
external encoders `Web3::toJson` and `Web3::toBytes` are left uninterpreted:
each constructor records which encoder was applied to which value. -/
inductive Arg where
  | toJsonRequestLine (r : RequestLine)
  | toJsonRequestHeader (h : RequestHeader)
  | toJsonGETRequest (g : GETRequest)
  | toBytes (s : String)
  | address (a : String)
  | uint32 (n : Nat)
  deriving DecidableEq, Repr

/-- One invocation of the transport: the contract object it was made on, the
method name and the argument sequence. -/
inductive Event where
  | call (target : Contract) (method : String) (args : List Arg)
  | send (target : Contract) (method : String) (args : List Arg)
  deriving DecidableEq, Repr

/-- Modelled from the spec: the transport of section 6.  `call` is the
read-only invocation, `send` the state-changing one; `W` is the state of the
remote endpoint. -/
structure Transport (W : Type) where
  call : W → Contract → String → List Arg → Json
  send : W → Contract → String → List Arg → W × Json

/-- The remote state together with the invocations made so far, oldest
first. -/
structure Net (W : Type) where
  world : W
  log : List Event

/-- The members of `WTTPHandler`. -/
structure WTTPHandler where
  wttp_ : Contract
  contract_ : Contract
  signer_ : Signer
  deriving DecidableEq, Repr

/-- The constructor `WTTPHandler::WTTPHandler`. -/
def WTTPHandler.new (wttp : Contract) (contractAddress abi : String) (signer : Signer) :
    WTTPHandler :=
  { wttp_ := wttp
    contract_ := { address := contractAddress, abi := abi, signer := signer }
    signer_ := signer }

/-- `contract->call(method, args)`: the remote state is left as it is. -/
def Transport.runCall {W : Type} (T : Transport W) (c : Contract) (method : String)
    (args : List Arg) (n : Net W) : Json × Net W :=
  (T.call n.world c method args, { n with log := n.log ++ [Event.call c method args] })

/-- `contract->send(method, args)`. -/
def Transport.runSend {W : Type} (T : Transport W) (c : Contract) (method : String)
    (args : List Arg) (n : Net W) : Json × Net W :=
  let r := T.send n.world c method args
  (r.2, { world := r.1, log := n.log ++ [Event.send c method args] })

/-- `WTTPHandler::get`. -/
def WTTPHandler.get {W : Type} (T : Transport W)
    (decodeContent : String → String → Except DecodeError String)
    (h : WTTPHandler) (path : String) (rangeStart rangeEnd : Nat)
    (ifNoneMatch : String) (ifModifiedSince : Nat) (n : Net W) :
    Except DecodeError GETResponse × Net W :=
  let requestLine : RequestLine := { protocol := "WTTP/2.0", path := path }
  let requestHeader : RequestHeader :=
    { accept := [], acceptCharset := [], acceptLanguage := [],
      ifModifiedSince := ifModifiedSince, ifNoneMatch := ifNoneMatch }
  let getRequest : GETRequest :=
    { host := h.contract_.address, rangeStart := rangeStart, rangeEnd := rangeEnd }
  let r := T.runCall h.wttp_ "GET"
    [Arg.toJsonRequestLine requestLine,
     Arg.toJsonRequestHeader requestHeader,
     Arg.toJsonGETRequest getRequest] n
  (processResponse decodeContent r.1, r.2)

/-- `WTTPHandler::put`.  `validateResponse` is the private member function of
that name, taken as a parameter. -/
def WTTPHandler.put {W : Type} (T : Transport W)
    (validateResponse : Json → Except DecodeError Unit)
    (h : WTTPHandler) (path content mimeType charset : String) (n : Net W) :
    Except DecodeError Unit × Net W :=
  let requestLine : RequestLine := { protocol := "WTTP/2.0", path := path }
  let r := T.runSend h.contract_ "PUT"
    [Arg.toJsonRequestLine requestLine,
     Arg.toBytes mimeType,
     Arg.toBytes charset,
     Arg.toBytes "0x0101",
     Arg.address h.signer_.address,
     Arg.toBytes content] n
  (validateResponse r.1, r.2)

/-- `put(path, content)` with the default arguments of the declaration in
`WTTPHandler.hpp`: `mimeType = "TEXT_PLAIN"`, `charset = "UTF_8"`. -/
def WTTPHandler.putDefault {W : Type} (T : Transport W)
    (validateResponse : Json → Except DecodeError Unit)
    (h : WTTPHandler) (path content : String) (n : Net W) :
    Except DecodeError Unit × Net W :=
  h.put T validateResponse path content "TEXT_PLAIN" "UTF_8" n

/-- `WTTPHandler::patch`. -/
def WTTPHandler.patch {W : Type} (T : Transport W)
    (validateResponse : Json → Except DecodeError Unit)
    (h : WTTPHandler) (path content : String) (chunkIndex : Nat) (n : Net W) :
    Except DecodeError Unit × Net W :=
  let requestLine : RequestLine := { protocol := "WTTP/2.0", path := path }
  let r := T.runSend h.contract_ "PATCH"
    [Arg.toJsonRequestLine requestLine,
     Arg.toBytes content,
     Arg.uint32 chunkIndex,
     Arg.address h.signer_.address] n
  (validateResponse r.1, r.2)

/-! ## The remote endpoint

The endpoint that stores resources is not part of the sources: only the client
and its tests are.  The definitions of this section follow sections 3, 4.4 and 6
and the glossary of the specification. -/

/-- Modelled from the spec: a stored resource of the remote endpoint.  The
chunks are kept by index; a gap (an index never written) is `none`. -/
structure Resource where
  mimeType : String
  charset : String
  location : String
  chunks : List (Option String)
  version : Nat
  modifiedDate : Nat

/-- Modelled from the spec: the state of the remote side.  Resources are
addressed by the address of the site contract and by their path; `header` is
the header the site was deployed with and `clock` the time of the next
state-changing invocation. -/
structure World where
  sites : String → String → Option Resource
  header : HeaderInfo
  clock : Nat

/-- Modelled from the spec: what the specification leaves to the transport and
its serialisation.  `wire` is the form in which a body blob comes back from a
read, `fingerprint` the etag of a content, `select` the chunks a bounded range
keeps, and `accepted` / `rejected` the two outcomes of a state-changing
invocation. -/
structure Serialisation where
  wire : String → String
  fingerprint : String → String
  select : Nat → Nat → List (Option String) → List (Option String)
  accepted : Json
  rejected : Json

/-- Modelled from the spec: writing chunk `i` ("subsequent indices added or
overwritten by PATCH; gaps are legal"). -/
def setChunk : List (Option String) → Nat → String → List (Option String)
  | [], 0, c => [some c]
  | [], i + 1, c => none :: setChunk [] i c
  | _ :: t, 0, c => some c :: t
  | x :: t, i + 1, c => x :: setChunk t i c

/-- Modelled from the spec: the assembled content, "the remote endpoint
concatenates chunks by index order". -/
def assemble (chunks : List (Option String)) : String :=
  String.join (chunks.filterMap id)

/-- Replace the resource stored at one address and path. -/
def World.store (w : World) (address path : String) (res : Resource) : World :=
  { sites := fun a p => if a = address ∧ p = path then some res else w.sites a p
    header := w.header
    clock := w.clock + 1 }

/-- Modelled from the spec: `send` of the remote endpoint.  `PUT` "establishes
or fully replaces the resource's chunk 0 and resets chunk sequence"; `PATCH`
"targets an existing resource" and writes one chunk; every successful write
raises `Metadata.version`.  Anything else is rejected. -/
def remoteSend (M : Serialisation) (w : World) (c : Contract) (method : String)
    (args : List Arg) : World × Json :=
  if method = "PUT" then
    match args with
    | [Arg.toJsonRequestLine line, Arg.toBytes mimeType, Arg.toBytes charset,
       Arg.toBytes location, Arg.address _, Arg.toBytes content] =>
      let version :=
        match w.sites c.address line.path with
        | some old => old.version + 1
        | none => 1
      (w.store c.address line.path
        { mimeType := mimeType, charset := charset, location := location,
          chunks := [some content], version := version, modifiedDate := w.clock },
       M.accepted)
    | _ => (w, M.rejected)
  else if method = "PATCH" then
    match args with
    | [Arg.toJsonRequestLine line, Arg.toBytes content, Arg.uint32 chunkIndex,
       Arg.address _] =>
      match w.sites c.address line.path with
      | some old =>
        (w.store c.address line.path
          { old with chunks := setChunk old.chunks chunkIndex content,
                     version := old.version + 1, modifiedDate := w.clock },
         M.accepted)
      | none => (w, M.rejected)
    | _ => (w, M.rejected)
  else (w, M.rejected)

/-- Modelled from the spec: the head array the endpoint returns for a stored
resource, numbers as decimal strings of their 16-bit and 64-bit fields. -/
def resourceHead (M : Serialisation) (header : HeaderInfo) (code : Nat) (res : Resource)
    (content : String) : RawHead :=
  { protocol := "WTTP/2.0"
    code := Nat.repr code
    cache := header.cache
    methods := Nat.repr (header.methods % 65536)
    redirect := header.redirect
    resourceAdmin := header.resourceAdmin
    metaSize := Nat.repr (content.utf8ByteSize % 18446744073709551616)
    version := Nat.repr (res.version % 18446744073709551616)
    modifiedDate := Nat.repr (res.modifiedDate % 18446744073709551616)
    dsSize := Nat.repr (content.utf8ByteSize % 18446744073709551616)
    mimeType := res.mimeType
    charset := res.charset
    location := res.location
    etag := M.fingerprint content }

/-- Modelled from the spec: the head array of a path that holds no resource
(scenario C of section 8: status 404, structure still well-formed). -/
def missingHead (header : HeaderInfo) : RawHead :=
  { protocol := "WTTP/2.0", code := "404", cache := header.cache,
    methods := Nat.repr (header.methods % 65536), redirect := header.redirect,
    resourceAdmin := header.resourceAdmin, metaSize := "0", version := "0",
    modifiedDate := "0", dsSize := "0", mimeType := "", charset := "", location := "",
    etag := "" }

/-- Modelled from the spec: `call` of the remote endpoint.  `GET` reads the
resource of the site named by `host`: a range of `0, 0` is unbounded and
answers 200 with the whole assembled content, a bounded range answers 206 with
the selected chunks, a missing resource answers 404 with an empty body. -/
def remoteCall (M : Serialisation) (w : World) (_c : Contract) (method : String)
    (args : List Arg) : Json :=
  if method = "GET" then
    match args with
    | [Arg.toJsonRequestLine line, Arg.toJsonRequestHeader _, Arg.toJsonGETRequest request] =>
      match w.sites request.host line.path with
      | some res =>
        if request.rangeStart = 0 ∧ request.rangeEnd = 0 then
          rawGet (resourceHead M w.header 200 res (assemble res.chunks))
            (M.wire (assemble res.chunks))
        else
          rawGet
            (resourceHead M w.header 206 res
              (assemble (M.select request.rangeStart request.rangeEnd res.chunks)))
            (M.wire (assemble (M.select request.rangeStart request.rangeEnd res.chunks)))
      | none => rawGet (missingHead w.header) ""
    | _ => Json.null
  else Json.null

/-- Modelled from the spec: the transport of section 6 over the remote
endpoint. -/
def remote (M : Serialisation) : Transport World :=
  { call := remoteCall M, send := remoteSend M }

/-- `patch(path, c, i)` for the chunks of `cs` in order, the first one at index
`start`, stopping at the first failure. -/
def WTTPHandler.patchAll {W : Type} (T : Transport W)
    (validateResponse : Json → Except DecodeError Unit)
    (h : WTTPHandler) (path : String) : List String → Nat → Net W →
    Except DecodeError Unit × Net W
  | [], _, n => (Except.ok (), n)
  | c :: cs, start, n =>
    match h.patch T validateResponse path c start n with
    | (Except.ok _, n1) => WTTPHandler.patchAll T validateResponse h path cs (start + 1) n1
    | (Except.error e, n1) => (Except.error e, n1)

/-- The sequence of the test `MultiPartResource`: `put(path, c0, mimeType,
charset)`, then `patch(path, ci, i)` for `i = 1..n`, then `get(path)` with its
default arguments.  A failure of a write ends the sequence. -/
def WTTPHandler.putPatchGet {W : Type} (T : Transport W)
    (validateResponse : Json → Except DecodeError Unit)
    (decodeContent : String → String → Except DecodeError String)
    (h : WTTPHandler) (path c0 : String) (cs : List String) (mimeType charset : String)
    (n : Net W) : Except DecodeError GETResponse :=
  match h.put T validateResponse path c0 mimeType charset n with
  | (Except.error e, _) => Except.error e
  | (Except.ok _, n1) =>
    match h.patchAll T validateResponse path cs 1 n1 with
    | (Except.error e, _) => Except.error e
    | (Except.ok _, n2) => (h.get T decodeContent path 0 0 "" 0 n2).1

/-- A serialisation used at concrete inputs: the wire form of a content is the
content after the marker `0x`, which `dropMarker` removes. -/
def markerSerialisation : Serialisation :=
  { wire := fun s => "0x" ++ s
    fingerprint := fun s => s
    select := fun _ _ chunks => chunks
    accepted := Json.str "accepted"
    rejected := Json.null }

/-- A stand-in for `validateResponse` used at concrete inputs: only `null` is a
rejected outcome. -/
def rejectNull : Json → Except DecodeError Unit
  | Json.null => Except.error DecodeError.transportRejected
  | _ => Except.ok ()

/-- The remote state before any write: no resource, the default header of the
test fixture. -/
def emptyWorld : World :=
  { sites := fun _ _ => none
    header := { cache := "", methods := 2913, redirect := "",
                resourceAdmin := "0x0000000000000000000000000000000000000000" }
    clock := 0 }

/-! ## Lemmas on the number scanner -/

theorem isSpace_of_isDigit {c : Char} (h : c.isDigit = true) : isSpace c = false := by
  have h48 : 48 ≤ c.toNat := by
    simp [Char.isDigit] at h
    exact h.1
  simp only [isSpace, Bool.or_eq_false_iff, decide_eq_false_iff_not]
  refine ⟨⟨⟨⟨⟨?_, ?_⟩, ?_⟩, ?_⟩, ?_⟩, ?_⟩ <;> rintro rfl <;> revert h48 <;> decide

theorem not_sign_of_isDigit {c : Char} (h : c.isDigit = true) : c ≠ '-' ∧ c ≠ '+' := by
  have h48 : 48 ≤ c.toNat := by
    simp [Char.isDigit] at h
    exact h.1
  constructor <;> rintro rfl <;> revert h48 <;> decide

theorem digitsValue_snoc (ds : List Char) (c : Char) :
    digitsValue (ds ++ [c]) = digitsValue ds * 10 + (c.toNat - 48) := by
  simp [digitsValue, List.foldl_append]

theorem digitsValue_eq_ofDigits (ds : List Char) :
    digitsValue ds = Nat.ofDigits 10 (ds.reverse.map (fun c => c.toNat - 48)) := by
  induction ds using List.reverseRecOn with
  | nil => simp [digitsValue]
  | append_singleton ds c ih =>
    rw [digitsValue_snoc, ih]
    simp [Nat.ofDigits_cons]
    ring

theorem scanNumber_of_isDecimal {s : String} (h : IsDecimal s) :
    scanNumber s = some (false, decimalValue s) := by
  obtain ⟨hne, hall⟩ := h
  cases hs : s.toList with
  | nil => exact absurd hs hne
  | cons c t =>
    rw [hs] at hall
    have hc : c.isDigit = true := hall c (List.mem_cons_self c t)
    have hsp : isSpace c = false := isSpace_of_isDigit hc
    have hsign := not_sign_of_isDigit hc
    have htake : (c :: t).takeWhile Char.isDigit = c :: t :=
      List.takeWhile_eq_self_iff.mpr hall
    have hval : decimalValue s = digitsValue (c :: t) := by
      rw [digitsValue_eq_ofDigits, decimalValue, hs]
    simp only [scanNumber, hs, List.dropWhile_cons, hsp, Bool.false_eq_true, if_false,
      hsign.1, hsign.2, htake, hval]
    simp

theorem stoi_of_isDecimal {s : String} (h : IsDecimal s) (hfit : decimalValue s < 2147483648) :
    stoi s = Except.ok (decimalValue s : Int) := by
  simp only [stoi, scanNumber_of_isDecimal h]
  have h1 : ¬ ((decimalValue s : Int) < -2147483648 ∨ 2147483647 < (decimalValue s : Int)) := by
    omega
  simp only [Bool.false_eq_true, if_false, h1]

theorem stoul_of_isDecimal {s : String} (h : IsDecimal s)
    (hfit : decimalValue s < 18446744073709551616) :
    stoul s = Except.ok (decimalValue s) := by
  simp only [stoul, scanNumber_of_isDecimal h]
  have h1 : ¬ (18446744073709551615 < decimalValue s) := by omega
  simp [h1]

theorem toUInt16_of_lt {n : Nat} (h : n < 65536) : toUInt16 (n : Int) = n := by
  unfold toUInt16
  omega

/-! ## Decimal rendering (`Nat.repr`) read back by the scanner -/

theorem digitChar_spec : ∀ k, k < 10 →
    (Nat.digitChar k).isDigit = true ∧ (Nat.digitChar k).toNat - 48 = k := by
  decide

theorem toDigitsCore_isDigit (fuel : Nat) : ∀ (n : Nat) (ds : List Char),
    (∀ c ∈ ds, c.isDigit = true) → ∀ c ∈ Nat.toDigitsCore 10 fuel n ds, c.isDigit = true := by
  induction fuel with
  | zero => intro n ds hds; simpa [Nat.toDigitsCore] using hds
  | succ fuel ih =>
    intro n ds hds
    have hd : (Nat.digitChar (n % 10)).isDigit = true :=
      (digitChar_spec (n % 10) (Nat.mod_lt n (by decide))).1
    have hcons : ∀ c ∈ Nat.digitChar (n % 10) :: ds, c.isDigit = true := by
      intro c hc
      rcases List.mem_cons.mp hc with rfl | hc
      · exact hd
      · exact hds c hc
    simp only [Nat.toDigitsCore]
    split_ifs
    · exact hcons
    · exact ih (n / 10) _ hcons

theorem toDigitsCore_ne_nil (fuel : Nat) : ∀ (n : Nat) (ds : List Char),
    ds ≠ [] ∨ 0 < fuel → Nat.toDigitsCore 10 fuel n ds ≠ [] := by
  induction fuel with
  | zero =>
    intro n ds h
    rcases h with h | h
    · simpa [Nat.toDigitsCore] using h
    · omega
  | succ fuel ih =>
    intro n ds _
    simp only [Nat.toDigitsCore]
    split_ifs
    · simp
    · exact ih (n / 10) _ (Or.inl (by simp))

theorem toDigitsCore_foldl (fuel : Nat) : ∀ (n : Nat) (ds : List Char), n < fuel →
    (Nat.toDigitsCore 10 fuel n ds).foldl (fun acc c => acc * 10 + (c.toNat - 48)) 0 =
      ds.foldl (fun acc c => acc * 10 + (c.toNat - 48)) n := by
  induction fuel with
  | zero => intro n ds h; omega
  | succ fuel ih =>
    intro n ds h
    have hd : (Nat.digitChar (n % 10)).toNat - 48 = n % 10 :=
      (digitChar_spec (n % 10) (Nat.mod_lt n (by decide))).2
    simp only [Nat.toDigitsCore]
    split_ifs with h0
    · have hn : n % 10 = n := by omega
      simp only [List.foldl_cons, Nat.zero_mul, Nat.zero_add]
      rw [hd, hn]
    · rw [ih (n / 10) _ (by omega)]
      simp only [List.foldl_cons, hd]
      congr 1
      omega

theorem isDecimal_repr (n : Nat) : IsDecimal (Nat.repr n) := by
  refine ⟨toDigitsCore_ne_nil (n + 1) n [] (Or.inr (Nat.succ_pos n)), ?_⟩
  exact toDigitsCore_isDigit (n + 1) n [] (by simp)

theorem decimalValue_repr (n : Nat) : decimalValue (Nat.repr n) = n := by
  have h := toDigitsCore_foldl (n + 1) n [] (Nat.lt_succ_self n)
  rw [decimalValue, ← digitsValue_eq_ofDigits]
  exact h

/-! ## Lemmas on `decodeHead` and `processResponse` -/

/-- On a head array of the expected shape every positional access succeeds, and
what is left of `decodeHead` is the six numeric conversions, in source order. -/
theorem decodeHead_toJson (r : RawHead) :
    decodeHead r.toJson =
      (stoi r.code >>= fun code =>
       stoi r.methods >>= fun methods =>
       stoul r.metaSize >>= fun size =>
       stoul r.version >>= fun version =>
       stoul r.modifiedDate >>= fun modifiedDate =>
       stoul r.dsSize >>= fun dsSize =>
       pure {
         responseLine := { protocol := r.protocol, code := toUInt16 code }
         headerInfo := { cache := r.cache, methods := toUInt16 methods,
                         redirect := r.redirect, resourceAdmin := r.resourceAdmin }
         metadata := { size := size, version := version, modifiedDate := modifiedDate }
         dataStructure := { size := dsSize, mimeType := r.mimeType, charset := r.charset,
                            location := r.location }
         etag := r.etag }) := by
  simp [decodeHead, field, RawHead.toJson, Json.index, Json.asString, bind, Except.bind, pure,
    Except.pure]

/-- A head that decodes keeps the string leaves of the raw head verbatim. -/
theorem decodeHead_ok_strings {r : RawHead} {head : HEADResponse}
    (h : decodeHead r.toJson = Except.ok head) :
    head.responseLine.protocol = r.protocol ∧ head.dataStructure.mimeType = r.mimeType ∧
      head.dataStructure.charset = r.charset := by
  rw [decodeHead_toJson] at h
  cases h1 : stoi r.code <;> simp only [h1, bind, Except.bind] at h
  · exact absurd h (by simp)
  cases h2 : stoi r.methods <;> simp only [h2] at h
  · exact absurd h (by simp)
  cases h3 : stoul r.metaSize <;> simp only [h3] at h
  · exact absurd h (by simp)
  cases h4 : stoul r.version <;> simp only [h4] at h
  · exact absurd h (by simp)
  cases h5 : stoul r.modifiedDate <;> simp only [h5] at h
  · exact absurd h (by simp)
  cases h6 : stoul r.dsSize <;> simp only [h6] at h
  · exact absurd h (by simp)
  simp only [pure, Except.pure, Except.ok.injEq] at h
  subst h
  exact ⟨rfl, rfl, rfl⟩

theorem isEmpty_toList_iff (body : String) : body.toList.isEmpty = true ↔ body = "" := by
  rw [List.isEmpty_iff]
  constructor
  · intro h
    exact String.ext h
  · intro h
    subst h
    rfl

/-- The two outcomes of `processResponse` on a raw result of the expected shape
whose head decodes: the decoded body when the three conditions of the source
hold together, the raw body otherwise. -/
theorem processResponse_rawGet (dec : String → String → Except DecodeError String)
    (r : RawHead) (body : String) (head : HEADResponse)
    (hhead : decodeHead r.toJson = Except.ok head) :
    processResponse dec (rawGet r body) =
      if (head.responseLine.code = 200 ∨ head.responseLine.code = 206) ∧
          r.mimeType ∈ textBasedTypes ∧ body ≠ "" then
        (dec body r.charset).map (fun text => { head := head, body := text })
      else Except.ok { head := head, body := body } := by
  obtain ⟨-, hm, hc⟩ := decodeHead_ok_strings hhead
  have hidx0 : (rawGet r body).index 0 = Except.ok r.toJson := rfl
  have hidx1 : (rawGet r body).index 1 = Except.ok (Json.str body) := rfl
  simp only [processResponse, hidx0, hidx1, hhead, bind, Except.bind, hm, hc, Json.empty,
    Json.asString, pure, Except.pure]
  by_cases hcode : head.responseLine.code = 200 ∨ head.responseLine.code = 206
  · by_cases hmem : r.mimeType ∈ textBasedTypes
    · by_cases hbody : body = ""
      · subst hbody
        simp [hcode, hmem]
      · have hne : body.toList.isEmpty = false := by
          rw [Bool.eq_false_iff]
          intro hh
          exact hbody ((isEmpty_toList_iff body).mp hh)
        have hcont : textBasedTypes.contains r.mimeType = true := by simp [hmem]
        simp only [hcode, hmem, hbody, hne, hcont, if_true, not_false_eq_true, and_self,
          Bool.not_false, Bool.and_self]
        cases dec body r.charset <;> simp [Except.map, hbody]
    · have hcont : textBasedTypes.contains r.mimeType = false := by simp [hmem]
      simp [hcode, hmem, hcont]
  · simp [hcode]

theorem decodeHead_of_numericFit {r : RawHead} (h : r.NumericFit) :
    decodeHead r.toJson = Except.ok r.decoded := by
  obtain ⟨⟨d1, b1⟩, ⟨d2, b2⟩, ⟨d3, b3⟩, ⟨d4, b4⟩, ⟨d5, b5⟩, ⟨d6, b6⟩⟩ := h
  rw [decodeHead_toJson, stoi_of_isDecimal d1 (by omega), stoi_of_isDecimal d2 (by omega),
    stoul_of_isDecimal d3 b3, stoul_of_isDecimal d4 b4, stoul_of_isDecimal d5 b5,
    stoul_of_isDecimal d6 b6]
  simp only [bind, Except.bind, pure, Except.pure, toUInt16_of_lt b1, toUInt16_of_lt b2]
  rfl

theorem stoi_of_scan_none {s : String} (h : scanNumber s = none) :
    stoi s = Except.error DecodeError.invalidArgument := by
  simp [stoi, h]

theorem stoul_of_scan_none {s : String} (h : scanNumber s = none) :
    stoul s = Except.error DecodeError.invalidArgument := by
  simp [stoul, h]

/-- A failure of the head is the failure of `processResponse`. -/
theorem processResponse_rawGet_error (dec : String → String → Except DecodeError String)
    (r : RawHead) (body : String) (e : DecodeError)
    (hhead : decodeHead r.toJson = Except.error e) :
    processResponse dec (rawGet r body) = Except.error e := by
  have hidx0 : (rawGet r body).index 0 = Except.ok r.toJson := rfl
  have hidx1 : (rawGet r body).index 1 = Except.ok (Json.str body) := rfl
  simp only [processResponse, hidx0, hidx1, hhead, bind, Except.bind]

/-- When one of the six numeric leaves has no number to scan, the head does
not decode. -/
theorem decodeHead_error_of_scan_none {r : RawHead}
    (h : scanNumber r.code = none ∨ scanNumber r.methods = none ∨
      scanNumber r.metaSize = none ∨ scanNumber r.version = none ∨
      scanNumber r.modifiedDate = none ∨ scanNumber r.dsSize = none) :
    ∃ e, decodeHead r.toJson = Except.error e := by
  rw [decodeHead_toJson]
  cases h1 : stoi r.code with
  | error e => exact ⟨e, rfl⟩
  | ok v1 =>
  cases h2 : stoi r.methods with
  | error e => exact ⟨e, rfl⟩
  | ok v2 =>
  cases h3 : stoul r.metaSize with
  | error e => exact ⟨e, rfl⟩
  | ok v3 =>
  cases h4 : stoul r.version with
  | error e => exact ⟨e, rfl⟩
  | ok v4 =>
  cases h5 : stoul r.modifiedDate with
  | error e => exact ⟨e, rfl⟩
  | ok v5 =>
  cases h6 : stoul r.dsSize with
  | error e => exact ⟨e, rfl⟩
  | ok v6 =>
  exfalso
  rcases h with h | h | h | h | h | h
  · rw [stoi_of_scan_none h] at h1; exact absurd h1 (by simp)
  · rw [stoi_of_scan_none h] at h2; exact absurd h2 (by simp)
  · rw [stoul_of_scan_none h] at h3; exact absurd h3 (by simp)
  · rw [stoul_of_scan_none h] at h4; exact absurd h4 (by simp)
  · rw [stoul_of_scan_none h] at h5; exact absurd h5 (by simp)
  · rw [stoul_of_scan_none h] at h6; exact absurd h6 (by simp)

/-- Replacing the protocol leaf of a raw head changes the decoded head in that
one field and nothing else, failures included. -/
theorem decodeHead_with_protocol (r : RawHead) (p : String) :
    decodeHead ({ r with protocol := p } : RawHead).toJson =
      (decodeHead r.toJson).map
        (fun head => { head with responseLine := { head.responseLine with protocol := p } }) := by
  rw [decodeHead_toJson, decodeHead_toJson]
  cases stoi r.code with
  | error e => rfl
  | ok v1 =>
  cases stoi r.methods with
  | error e => rfl
  | ok v2 =>
  cases stoul r.metaSize with
  | error e => rfl
  | ok v3 =>
  cases stoul r.version with
  | error e => rfl
  | ok v4 =>
  cases stoul r.modifiedDate with
  | error e => rfl
  | ok v5 =>
  cases stoul r.dsSize with
  | error e => rfl
  | ok v6 => rfl

/-! ## Lemmas on positional accesses -/

theorem not_tooShort_of_index {j v : Json} {i : Nat} (h : j.index i = Except.ok v) :
    ¬ TooShort j (i + 1) := by
  rintro ⟨xs, rfl, hlen⟩
  simp only [Json.index] at h
  have hnone : xs.get? i = none := List.get?_eq_none.mpr (by omega)
  rw [hnone] at h
  exact absurd h (by simp)

theorem not_tooShort_of_field {headArray row : Json} {i j : Nat} {s : String}
    (h : field headArray i j = Except.ok s) (hrow : headArray.index i = Except.ok row) :
    ¬ TooShort row (j + 1) := by
  simp only [field, hrow, bind, Except.bind] at h
  cases hcell : row.index j with
  | error e => rw [hcell] at h; exact absurd h (by simp)
  | ok cell => exact not_tooShort_of_index hcell

/-- A head that decodes has its last leaf of every row and its fifth element
in place. -/
theorem decodeHead_ok_accesses {headArray : Json} {head : HEADResponse}
    (h : decodeHead headArray = Except.ok head) :
    (∃ s, field headArray 0 1 = Except.ok s) ∧ (∃ s, field headArray 1 3 = Except.ok s) ∧
      (∃ s, field headArray 2 2 = Except.ok s) ∧ (∃ s, field headArray 3 3 = Except.ok s) ∧
      (∃ v, headArray.index 4 = Except.ok v) := by
  simp only [decodeHead, bind, Except.bind] at h
  cases h00 : field headArray 0 0 <;> simp only [h00] at h
  · exact absurd h (by simp)
  cases h01 : field headArray 0 1 <;> simp only [h01] at h
  · exact absurd h (by simp)
  cases n01 : stoi ‹String› <;> simp only [n01] at h
  · exact absurd h (by simp)
  cases h10 : field headArray 1 0 <;> simp only [h10] at h
  · exact absurd h (by simp)
  cases h11 : field headArray 1 1 <;> simp only [h11] at h
  · exact absurd h (by simp)
  cases n11 : stoi ‹String› <;> simp only [n11] at h
  · exact absurd h (by simp)
  cases h12 : field headArray 1 2 <;> simp only [h12] at h
  · exact absurd h (by simp)
  cases h13 : field headArray 1 3 <;> simp only [h13] at h
  · exact absurd h (by simp)
  cases h20 : field headArray 2 0 <;> simp only [h20] at h
  · exact absurd h (by simp)
  cases n20 : stoul ‹String› <;> simp only [n20] at h
  · exact absurd h (by simp)
  cases h21 : field headArray 2 1 <;> simp only [h21] at h
  · exact absurd h (by simp)
  cases n21 : stoul ‹String› <;> simp only [n21] at h
  · exact absurd h (by simp)
  cases h22 : field headArray 2 2 <;> simp only [h22] at h
  · exact absurd h (by simp)
  cases n22 : stoul ‹String› <;> simp only [n22] at h
  · exact absurd h (by simp)
  cases h30 : field headArray 3 0 <;> simp only [h30] at h
  · exact absurd h (by simp)
  cases n30 : stoul ‹String› <;> simp only [n30] at h
  · exact absurd h (by simp)
  cases h31 : field headArray 3 1 <;> simp only [h31] at h
  · exact absurd h (by simp)
  cases h32 : field headArray 3 2 <;> simp only [h32] at h
  · exact absurd h (by simp)
  cases h33 : field headArray 3 3 <;> simp only [h33] at h
  · exact absurd h (by simp)
  cases h4 : headArray.index 4 <;> simp only [h4] at h
  · exact absurd h (by simp)
  exact ⟨⟨_, rfl⟩, ⟨_, rfl⟩, ⟨_, rfl⟩, ⟨_, rfl⟩, ⟨_, rfl⟩⟩

/-- A result of `processResponse` means both outer accesses and the head
succeeded. -/
theorem processResponse_ok_accesses {dec : String → String → Except DecodeError String}
    {response : Json} {g : GETResponse} (h : processResponse dec response = Except.ok g) :
    ∃ headArray bodyHex head, response.index 0 = Except.ok headArray ∧
      response.index 1 = Except.ok bodyHex ∧ decodeHead headArray = Except.ok head := by
  simp only [processResponse, bind, Except.bind] at h
  cases h0 : response.index 0 with
  | error e => simp only [h0] at h; exact absurd h (by simp)
  | ok headArray =>
  cases h1 : response.index 1 with
  | error e => simp only [h0, h1] at h; exact absurd h (by simp)
  | ok bodyHex =>
  cases hd : decodeHead headArray with
  | error e => simp only [h0, h1, hd] at h; exact absurd h (by simp)
  | ok head => exact ⟨headArray, bodyHex, head, rfl, rfl, hd⟩

/-! ## Content interpretation (claims C1, C2, C3) -/

/-- C1: for a raw GET result of the expected shape whose head decodes and whose
mimeType leaf (`headArray[3][1]`) is not one of the seven text-based tokens,
`processResponse` returns the decoded head with the raw body unchanged,
whatever `decodeContent` is, whatever the charset and the status code. -/
theorem processResponse_not_text_body_unchanged
    (dec : String → String → Except DecodeError String) (r : RawHead) (body : String)
    (head : HEADResponse) (hhead : decodeHead r.toJson = Except.ok head)
    (hmime : r.mimeType ∉ textBasedTypes) :
    processResponse dec (rawGet r body) = Except.ok { head := head, body := body } := by
  rw [processResponse_rawGet dec r body head hhead, if_neg]
  rintro ⟨-, hmem, -⟩
  exact hmime hmem

theorem processResponse_not_text_body_unchanged_witness :
    decodeHead ({ sampleHead "WTTP/2.0" "200" with mimeType := "IMAGE_PNG" } : RawHead).toJson =
        Except.ok { sampleDecoded "WTTP/2.0" 200 with
          dataStructure := { size := 5, mimeType := "IMAGE_PNG", charset := "UTF_8",
                             location := "0x0101" } } ∧
      "IMAGE_PNG" ∉ textBasedTypes ∧
      processResponse alwaysFails
          (rawGet { sampleHead "WTTP/2.0" "200" with mimeType := "IMAGE_PNG" } "0x89504e47") =
        Except.ok
          { head := { sampleDecoded "WTTP/2.0" 200 with
              dataStructure := { size := 5, mimeType := "IMAGE_PNG", charset := "UTF_8",
                                 location := "0x0101" } }
            body := "0x89504e47" } :=
  ⟨rfl, by decide,
    processResponse_not_text_body_unchanged alwaysFails
      { sampleHead "WTTP/2.0" "200" with mimeType := "IMAGE_PNG" } "0x89504e47" _ rfl
      (by decide)⟩

/-- C2, at a concrete input: the mimeType is `TEXT_HTML`, the raw body
`0x3c703e` is not empty and the decoder turns it into `3c703e`, but the status
code is 404 and `processResponse` returns the raw body, not the decoded one. -/
theorem processResponse_text_404_not_decoded :
    (sampleHead "WTTP/2.0" "404").mimeType ∈ textBasedTypes ∧
      "0x3c703e" ≠ "" ∧
      dropMarker "0x3c703e" (sampleHead "WTTP/2.0" "404").charset = Except.ok "3c703e" ∧
      processResponse dropMarker (rawGet (sampleHead "WTTP/2.0" "404") "0x3c703e") =
        Except.ok { head := sampleDecoded "WTTP/2.0" 404, body := "0x3c703e" } ∧
      processResponse dropMarker (rawGet (sampleHead "WTTP/2.0" "404") "0x3c703e") ≠
        (dropMarker "0x3c703e" (sampleHead "WTTP/2.0" "404").charset).map
          (fun text => { head := sampleDecoded "WTTP/2.0" 404, body := text }) := by
  refine ⟨by decide, by decide, rfl, rfl, ?_⟩
  intro h
  have h2 : (Except.ok { head := sampleDecoded "WTTP/2.0" 404, body := "0x3c703e" } :
      Except DecodeError GETResponse) =
      Except.ok { head := sampleDecoded "WTTP/2.0" 404, body := "3c703e" } := h
  simp only [Except.ok.injEq, GETResponse.mk.injEq, true_and] at h2
  exact absurd h2 (by decide)

/-- C2, amended: for a raw GET result of the expected shape whose head decodes
with status code 200 or 206, whose mimeType is in the text-based set and whose
body is not empty, `processResponse` returns the decoded head with the body
`decodeContent(bodyHex, charset)`; a failure of `decodeContent` is the failure
of `processResponse`. -/
theorem processResponse_text_success_decoded
    (dec : String → String → Except DecodeError String) (r : RawHead) (body : String)
    (head : HEADResponse) (hhead : decodeHead r.toJson = Except.ok head)
    (hcode : head.responseLine.code = 200 ∨ head.responseLine.code = 206)
    (hmime : r.mimeType ∈ textBasedTypes) (hbody : body ≠ "") :
    processResponse dec (rawGet r body) =
      (dec body r.charset).map (fun text => { head := head, body := text }) := by
  rw [processResponse_rawGet dec r body head hhead, if_pos ⟨hcode, hmime, hbody⟩]

theorem processResponse_text_success_decoded_witness :
    decodeHead (sampleHead "WTTP/2.0" "206").toJson = Except.ok (sampleDecoded "WTTP/2.0" 206) ∧
      ((sampleDecoded "WTTP/2.0" 206).responseLine.code = 200 ∨
        (sampleDecoded "WTTP/2.0" 206).responseLine.code = 206) ∧
      (sampleHead "WTTP/2.0" "206").mimeType ∈ textBasedTypes ∧
      "0x3c703e" ≠ "" ∧
      processResponse dropMarker (rawGet (sampleHead "WTTP/2.0" "206") "0x3c703e") =
        (dropMarker "0x3c703e" (sampleHead "WTTP/2.0" "206").charset).map
          (fun text => { head := sampleDecoded "WTTP/2.0" 206, body := text }) :=
  ⟨rfl, by decide, by decide, by decide,
    processResponse_text_success_decoded dropMarker (sampleHead "WTTP/2.0" "206") "0x3c703e" _
      rfl (by decide) (by decide) (by decide)⟩

/-- C3: for a raw GET result of the expected shape whose head decodes and whose
body is empty, `processResponse` returns the decoded head with an empty body,
for every mimeType, charset and status code and for every `decodeContent`
(which is therefore never consulted). -/
theorem processResponse_empty_body
    (dec : String → String → Except DecodeError String) (r : RawHead)
    (head : HEADResponse) (hhead : decodeHead r.toJson = Except.ok head) :
    processResponse dec (rawGet r "") = Except.ok { head := head, body := "" } := by
  rw [processResponse_rawGet dec r "" head hhead, if_neg]
  rintro ⟨-, -, hne⟩
  exact hne rfl

theorem processResponse_empty_body_witness :
    decodeHead (sampleHead "WTTP/2.0" "200").toJson = Except.ok (sampleDecoded "WTTP/2.0" 200) ∧
      (sampleHead "WTTP/2.0" "200").mimeType ∈ textBasedTypes ∧
      processResponse alwaysFails (rawGet (sampleHead "WTTP/2.0" "200") "") =
        Except.ok { head := sampleDecoded "WTTP/2.0" 200, body := "" } :=
  ⟨rfl, by decide,
    processResponse_empty_body alwaysFails (sampleHead "WTTP/2.0" "200") _ rfl⟩

/-! ## Decode failures (claims C4, C5, C6, C7) -/

/-- C4, at a concrete input: the status-code leaf `404 Not Found` is not a
string of digits only, yet `processResponse` returns a GETResponse, with status
code 404. -/
theorem processResponse_code_with_trailing_text :
    ¬ IsDecimal "404 Not Found" ∧
      processResponse dropMarker (rawGet (sampleHead "WTTP/2.0" "404 Not Found") "0x3c703e") =
        Except.ok { head := sampleDecoded "WTTP/2.0" 404, body := "0x3c703e" } :=
  ⟨by decide, rfl⟩

/-- C4, amended: for a raw GET result of the expected shape in which the
status-code leaf, or any other of the six numeric leaves, does not start with a
base-10 digit once leading white space and one optional sign are skipped,
`processResponse` fails and returns no GETResponse.  (Characters after the
digits are not looked at.) -/
theorem processResponse_fails_without_leading_number
    (dec : String → String → Except DecodeError String) (r : RawHead) (body : String)
    (h : scanNumber r.code = none ∨ scanNumber r.methods = none ∨
      scanNumber r.metaSize = none ∨ scanNumber r.version = none ∨
      scanNumber r.modifiedDate = none ∨ scanNumber r.dsSize = none) :
    ∃ e, processResponse dec (rawGet r body) = Except.error e := by
  obtain ⟨e, he⟩ := decodeHead_error_of_scan_none h
  exact ⟨e, processResponse_rawGet_error dec r body e he⟩

theorem processResponse_fails_without_leading_number_witness :
    (scanNumber (sampleHead "WTTP/2.0" "OK").code = none ∨
        scanNumber (sampleHead "WTTP/2.0" "OK").methods = none ∨
        scanNumber (sampleHead "WTTP/2.0" "OK").metaSize = none ∨
        scanNumber (sampleHead "WTTP/2.0" "OK").version = none ∨
        scanNumber (sampleHead "WTTP/2.0" "OK").modifiedDate = none ∨
        scanNumber (sampleHead "WTTP/2.0" "OK").dsSize = none) ∧
      ∃ e, processResponse dropMarker (rawGet (sampleHead "WTTP/2.0" "OK") "0x3c703e") =
        Except.error e :=
  ⟨Or.inl rfl,
    processResponse_fails_without_leading_number dropMarker (sampleHead "WTTP/2.0" "OK")
      "0x3c703e" (Or.inl rfl)⟩

/-- C5, at a concrete input: the declared protocol version is `HTTP/1.1`, not
`WTTP/2.0`, and `processResponse` returns a GETResponse that carries it. -/
theorem processResponse_other_version_accepted :
    "HTTP/1.1" ≠ "WTTP/2.0" ∧
      processResponse dropMarker (rawGet (sampleHead "HTTP/1.1" "200") "0x3c703e") =
        Except.ok { head := sampleDecoded "HTTP/1.1" 200, body := "3c703e" } :=
  ⟨by decide, rfl⟩

/-- C5, amended: `processResponse` does not inspect the declared protocol
version.  For a raw GET result of the expected shape, replacing the version
leaf by any string `p` leaves the outcome as it was (same failure, or same
GETResponse) except that `responseLine.protocol` is `p`, copied verbatim. -/
theorem processResponse_protocol_not_checked
    (dec : String → String → Except DecodeError String) (r : RawHead) (body p : String) :
    processResponse dec (rawGet { r with protocol := p } body) =
      (processResponse dec (rawGet r body)).map (fun g => g.withProtocol p) := by
  have hp := decodeHead_with_protocol r p
  cases hr : decodeHead r.toJson with
  | error e =>
    rw [hr] at hp
    rw [processResponse_rawGet_error dec r body e hr,
      processResponse_rawGet_error dec _ body e hp]
    rfl
  | ok head =>
    rw [hr] at hp
    rw [processResponse_rawGet dec r body head hr, processResponse_rawGet dec _ body _ hp]
    simp only [Except.map]
    split_ifs
    · cases dec body r.charset <;> rfl
    · rfl

/-- C6: for a raw GET result of the expected shape whose six numeric leaves are
decimal strings of values that fit their fields, and whose status code is
neither 200 nor 206, `processResponse` does not fail: it returns the fully
decoded head (numeric fields equal to the base-10 values of their strings,
string fields copied verbatim, etag = `headArray[4]`) together with the raw
body. -/
theorem processResponse_non_success_status_decoded
    (dec : String → String → Except DecodeError String) (r : RawHead) (body : String)
    (hfit : r.NumericFit)
    (hcode : decimalValue r.code ≠ 200 ∧ decimalValue r.code ≠ 206) :
    processResponse dec (rawGet r body) = Except.ok { head := r.decoded, body := body } := by
  rw [processResponse_rawGet dec r body r.decoded (decodeHead_of_numericFit hfit), if_neg]
  rintro ⟨h | h, -, -⟩
  · exact hcode.1 h
  · exact hcode.2 h

theorem processResponse_non_success_status_decoded_witness :
    (sampleHead "WTTP/2.0" "404").NumericFit ∧
      (decimalValue (sampleHead "WTTP/2.0" "404").code ≠ 200 ∧
        decimalValue (sampleHead "WTTP/2.0" "404").code ≠ 206) ∧
      processResponse alwaysFails (rawGet (sampleHead "WTTP/2.0" "404") "0x3c703e") =
        Except.ok { head := (sampleHead "WTTP/2.0" "404").decoded, body := "0x3c703e" } :=
  ⟨by decide, by decide,
    processResponse_non_success_status_decoded alwaysFails (sampleHead "WTTP/2.0" "404")
      "0x3c703e" (by decide) (by decide)⟩

/-- C7, at a concrete input: the outer array has three elements, the head
array six and its first row three, and `processResponse` returns a complete
GETResponse; the surplus elements are never looked at. -/
theorem processResponse_surplus_elements_accepted :
    (∃ head body extra, overlongResponse = Json.arr [head, body, extra]) ∧
      processResponse dropMarker overlongResponse =
        Except.ok { head := sampleDecoded "WTTP/2.0" 200, body := "3c703e" } :=
  ⟨⟨_, _, _, rfl⟩, rfl⟩

/-- C7, amended: for a raw GET result in which an array is too short at any
level (an outer array with fewer than 2 elements, a head array with fewer than
5, or a row `[0]`, `[1]`, `[2]`, `[3]` with fewer than 2, 4, 3, 4 elements),
`processResponse` fails and returns no GETResponse. -/
theorem processResponse_fails_when_too_short
    (dec : String → String → Except DecodeError String) (response : Json)
    (h : TooShort response 2 ∨
      ∃ headArray, response.index 0 = Except.ok headArray ∧
        (TooShort headArray 5 ∨
          ∃ i n row, (i, n) ∈ [(0, 2), (1, 4), (2, 3), (3, 4)] ∧
            headArray.index i = Except.ok row ∧ TooShort row n)) :
    ∃ e, processResponse dec response = Except.error e := by
  cases hres : processResponse dec response with
  | error e => exact ⟨e, rfl⟩
  | ok g =>
    exfalso
    obtain ⟨headArray, bodyHex, head, h0, h1, hd⟩ := processResponse_ok_accesses hres
    obtain ⟨⟨s0, f0⟩, ⟨s1, f1⟩, ⟨s2, f2⟩, ⟨s3, f3⟩, ⟨v4, i4⟩⟩ := decodeHead_ok_accesses hd
    rcases h with h | ⟨headArray2, h02, h⟩
    · exact not_tooShort_of_index h1 h
    · rw [h0] at h02
      cases h02
      rcases h with h | ⟨i, n, row, hmem, hrow, hshort⟩
      · exact not_tooShort_of_index i4 h
      · simp only [List.mem_cons, Prod.mk.injEq, List.mem_singleton, List.not_mem_nil,
          or_false] at hmem
        rcases hmem with ⟨rfl, rfl⟩ | ⟨rfl, rfl⟩ | ⟨rfl, rfl⟩ | ⟨rfl, rfl⟩
        · exact not_tooShort_of_field f0 hrow hshort
        · exact not_tooShort_of_field f1 hrow hshort
        · exact not_tooShort_of_field f2 hrow hshort
        · exact not_tooShort_of_field f3 hrow hshort

theorem processResponse_fails_when_too_short_witness :
    (TooShort (Json.arr [(sampleHead "WTTP/2.0" "200").toJson]) 2 ∨
        ∃ headArray,
          (Json.arr [(sampleHead "WTTP/2.0" "200").toJson]).index 0 = Except.ok headArray ∧
          (TooShort headArray 5 ∨
            ∃ i n row, (i, n) ∈ [(0, 2), (1, 4), (2, 3), (3, 4)] ∧
              headArray.index i = Except.ok row ∧ TooShort row n)) ∧
      ∃ e, processResponse dropMarker (Json.arr [(sampleHead "WTTP/2.0" "200").toJson]) =
        Except.error e :=
  ⟨Or.inl ⟨_, rfl, by decide⟩,
    processResponse_fails_when_too_short dropMarker
      (Json.arr [(sampleHead "WTTP/2.0" "200").toJson]) (Or.inl ⟨_, rfl, by decide⟩)⟩

/-! ## Request construction (claims C8, C9) -/

/-- C8: `put` makes exactly one invocation of the transport, the state-changing
`T.send` on the handler's contract with method name `PUT`, whose arguments are,
in order, the request line `WTTP/2.0` + path, mimeType, charset, the location
token `0x0101`, the address of the signer, and the content.  The whole result of
`put` is fixed by that invocation: the remote state is the one `T.send` leaves,
the value handed to `validateResponse` is the one `T.send` returns, and the log
grows by this single `send`.  With the default arguments the mimeType and
charset positions hold `TEXT_PLAIN` and `UTF_8`. -/
theorem put_issues_one_send {W : Type} (T : Transport W)
    (validateResponse : Json → Except DecodeError Unit)
    (wttp : Contract) (contractAddress abi : String) (signer : Signer)
    (path content mimeType charset : String) (n : Net W) :
    (∃ target args,
      target = ({ address := contractAddress, abi := abi, signer := signer } : Contract) ∧
      args =
        [Arg.toJsonRequestLine { protocol := "WTTP/2.0", path := path },
         Arg.toBytes mimeType, Arg.toBytes charset, Arg.toBytes "0x0101",
         Arg.address signer.address, Arg.toBytes content] ∧
      (WTTPHandler.new wttp contractAddress abi signer).put T validateResponse path content
          mimeType charset n =
        (validateResponse (T.send n.world target "PUT" args).2,
         { world := (T.send n.world target "PUT" args).1,
           log := n.log ++ [Event.send target "PUT" args] })) ∧
    (∃ target args,
      target = ({ address := contractAddress, abi := abi, signer := signer } : Contract) ∧
      args =
        [Arg.toJsonRequestLine { protocol := "WTTP/2.0", path := path },
         Arg.toBytes "TEXT_PLAIN", Arg.toBytes "UTF_8", Arg.toBytes "0x0101",
         Arg.address signer.address, Arg.toBytes content] ∧
      (WTTPHandler.new wttp contractAddress abi signer).putDefault T validateResponse path
          content n =
        (validateResponse (T.send n.world target "PUT" args).2,
         { world := (T.send n.world target "PUT" args).1,
           log := n.log ++ [Event.send target "PUT" args] })) :=
  ⟨⟨_, _, rfl, rfl, rfl⟩, ⟨_, _, rfl, rfl, rfl⟩⟩

/-- C9: `get` makes exactly one invocation of the transport, the read-only
`T.call` on the handler's `wttp_` contract with method name `GET`, whose
arguments are, in order, the request line `WTTP/2.0` + path, a request header
with the three lists empty and the two conditional fields taken from the
arguments, and a GET request with host = the address the handler was built
with, rangeStart and rangeEnd.  The whole result of `get` is fixed by that
invocation: the value returned is `processResponse` of what `T.call` returns,
the remote state is what it was (no `send`), and the log grows by this single
`call`. -/
theorem get_issues_one_call {W : Type} (T : Transport W)
    (dec : String → String → Except DecodeError String)
    (wttp : Contract) (contractAddress abi : String) (signer : Signer)
    (path : String) (rangeStart rangeEnd : Nat) (ifNoneMatch : String) (ifModifiedSince : Nat)
    (n : Net W) :
    ∃ args,
      args =
        [Arg.toJsonRequestLine { protocol := "WTTP/2.0", path := path },
         Arg.toJsonRequestHeader
           { accept := [], acceptCharset := [], acceptLanguage := [],
             ifModifiedSince := ifModifiedSince, ifNoneMatch := ifNoneMatch },
         Arg.toJsonGETRequest
           { host := contractAddress, rangeStart := rangeStart, rangeEnd := rangeEnd }] ∧
      (WTTPHandler.new wttp contractAddress abi signer).get T dec path rangeStart rangeEnd
          ifNoneMatch ifModifiedSince n =
        (processResponse dec (T.call n.world wttp "GET" args),
         { world := n.world, log := n.log ++ [Event.call wttp "GET" args] }) :=
  ⟨_, rfl, rfl⟩

/-! ## Lemmas on the remote endpoint -/

theorem resourceHead_numericFit (M : Serialisation) (header : HeaderInfo) (res : Resource)
    (content : String) : (resourceHead M header 200 res content).NumericFit := by
  simp only [RawHead.NumericFit, resourceHead, isDecimal_repr, decimalValue_repr, true_and]
  refine ⟨by decide, ?_, ?_, ?_, ?_, ?_⟩ <;> exact Nat.mod_lt _ (by decide)

theorem setChunk_length (xs : List (Option String)) (c : String) :
    setChunk xs xs.length c = xs ++ [some c] := by
  induction xs with
  | nil => rfl
  | cons x t ih => simp [setChunk, ih]

theorem assemble_map_some (l : List String) : assemble (l.map some) = String.join l := by
  simp [assemble, List.filterMap_map]

theorem store_sites_self (w : World) (address path : String) (res : Resource) :
    (w.store address path res).sites address path = some res := by
  simp [World.store]

/-- One accepted `patch` at the index that follows the chunks already stored. -/
theorem patch_remote (M : Serialisation) (validateResponse : Json → Except DecodeError Unit)
    (h : WTTPHandler) (path c : String) (n : Net World) (res : Resource)
    (hsite : n.world.sites h.contract_.address path = some res) (i : Nat) :
    h.patch (remote M) validateResponse path c i n =
      (validateResponse M.accepted,
       { world := n.world.store h.contract_.address path
           { res with chunks := setChunk res.chunks i c, version := res.version + 1,
                      modifiedDate := n.world.clock }
         log := n.log ++ [Event.send h.contract_ "PATCH"
           [Arg.toJsonRequestLine { protocol := "WTTP/2.0", path := path }, Arg.toBytes c,
            Arg.uint32 i, Arg.address h.signer_.address]] }) := by
  simp [WTTPHandler.patch, Transport.runSend, remote, remoteSend, hsite]

theorem patchAll_remote (M : Serialisation) (validateResponse : Json → Except DecodeError Unit)
    (h : WTTPHandler) (path : String) (hval : validateResponse M.accepted = Except.ok ()) :
    ∀ (cs pre : List String) (n : Net World) (res : Resource),
      n.world.sites h.contract_.address path = some res → res.chunks = pre.map some →
      ∃ n2 res2, h.patchAll (remote M) validateResponse path cs pre.length n = (Except.ok (), n2) ∧
        n2.world.sites h.contract_.address path = some res2 ∧
        res2.chunks = (pre ++ cs).map some ∧ res2.mimeType = res.mimeType ∧
        res2.charset = res.charset := by
  intro cs
  induction cs with
  | nil =>
    intro pre n res hsite hchunks
    exact ⟨n, res, rfl, hsite, by simpa using hchunks, rfl, rfl⟩
  | cons c cs ih =>
    intro pre n res hsite hchunks
    have hset : setChunk res.chunks pre.length c = (pre ++ [c]).map some := by
      rw [hchunks]
      have := setChunk_length (pre.map some) c
      simpa using this
    obtain ⟨n2, res2, hrun, hsite2, hch2, hm2, hc2⟩ :=
      ih (pre ++ [c])
        { world := n.world.store h.contract_.address path
            { res with chunks := setChunk res.chunks pre.length c, version := res.version + 1,
                       modifiedDate := n.world.clock }
          log := n.log ++ [Event.send h.contract_ "PATCH"
            [Arg.toJsonRequestLine { protocol := "WTTP/2.0", path := path }, Arg.toBytes c,
             Arg.uint32 pre.length, Arg.address h.signer_.address]] }
        { res with chunks := setChunk res.chunks pre.length c, version := res.version + 1,
                   modifiedDate := n.world.clock }
        (store_sites_self n.world h.contract_.address path _) hset
    refine ⟨n2, res2, ?_, hsite2, by simpa using hch2, hm2, hc2⟩
    rw [WTTPHandler.patchAll, patch_remote M validateResponse h path c n res hsite, hval]
    simpa using hrun

theorem put_remote (M : Serialisation) (validateResponse : Json → Except DecodeError Unit)
    (h : WTTPHandler) (path content mimeType charset : String) (n : Net World) :
    ∃ n1 res, h.put (remote M) validateResponse path content mimeType charset n =
        (validateResponse M.accepted, n1) ∧
      n1.world.sites h.contract_.address path = some res ∧
      res.chunks = [some content] ∧ res.mimeType = mimeType ∧ res.charset = charset := by
  have hrun : h.put (remote M) validateResponse path content mimeType charset n =
      (validateResponse M.accepted,
       { world := n.world.store h.contract_.address path
           { mimeType := mimeType, charset := charset, location := "0x0101",
             chunks := [some content],
             version := (match n.world.sites h.contract_.address path with
               | some old => old.version + 1
               | none => 1),
             modifiedDate := n.world.clock }
         log := n.log ++ [Event.send h.contract_ "PUT"
           [Arg.toJsonRequestLine { protocol := "WTTP/2.0", path := path },
            Arg.toBytes mimeType, Arg.toBytes charset, Arg.toBytes "0x0101",
            Arg.address h.signer_.address, Arg.toBytes content]] }) := by
    simp [WTTPHandler.put, Transport.runSend, remote, remoteSend]
  exact ⟨_, _, hrun, store_sites_self n.world h.contract_.address path _, rfl, rfl, rfl⟩

theorem get_remote (M : Serialisation) (dec : String → String → Except DecodeError String)
    (h : WTTPHandler) (path : String) (n : Net World) (res : Resource)
    (hsite : n.world.sites h.contract_.address path = some res) :
    (h.get (remote M) dec path 0 0 "" 0 n).1 =
      processResponse dec
        (rawGet (resourceHead M n.world.header 200 res (assemble res.chunks))
          (M.wire (assemble res.chunks))) := by
  simp [WTTPHandler.get, Transport.runCall, remote, remoteCall, hsite]

theorem dropMarker_markerWire (s charset : String) :
    dropMarker (markerSerialisation.wire s) charset = Except.ok s := by
  simp [dropMarker, markerSerialisation, String.toList]

theorem markerWire_ne_empty (s : String) : markerSerialisation.wire s = "" → s = "" := by
  intro h
  have h2 := congrArg String.length h
  simp only [markerSerialisation, String.length_append] at h2
  have h3 : "0x".length = 2 := rfl
  have h4 : "".length = 0 := rfl
  omega

/-! ## Write, then read (claim C10) -/

/-- C10: against the remote endpoint of the specification, for every path and
every content split into chunks `c0, c1, ..., cn` of a resource whose mimeType
is text-based, `put(path, c0, mimeType, charset)` followed by
`patch(path, ci, i)` for `i = 1..n` and then `get(path)` returns a GETResponse
with status code 200 whose body is `c0 ++ c1 ++ ... ++ cn` (the content that was
put when there is no patch).  The endpoint accepts the writes, and
`decodeContent` at this charset reads back what the transport serialises; only
the empty content has an empty serialised form. -/
theorem put_patch_get_roundtrip (M : Serialisation)
    (validateResponse : Json → Except DecodeError Unit)
    (dec : String → String → Except DecodeError String)
    (wttp : Contract) (contractAddress abi : String) (signer : Signer)
    (path c0 : String) (cs : List String) (mimeType charset : String) (n : Net World)
    (hmime : mimeType ∈ textBasedTypes)
    (hval : validateResponse M.accepted = Except.ok ())
    (hdec : ∀ s, dec (M.wire s) charset = Except.ok s)
    (hempty : ∀ s, M.wire s = "" → s = "") :
    ∃ g, (WTTPHandler.new wttp contractAddress abi signer).putPatchGet (remote M)
          validateResponse dec path c0 cs mimeType charset n = Except.ok g ∧
      g.head.responseLine.code = 200 ∧ g.body = String.join (c0 :: cs) := by
  generalize hh : WTTPHandler.new wttp contractAddress abi signer = h
  obtain ⟨n1, res1, hput, hsite1, hch1, hm1, hc1⟩ :=
    put_remote M validateResponse h path c0 mimeType charset n
  obtain ⟨n2, res2, hpatch, hsite2, hch2, hm2, hc2⟩ :=
    patchAll_remote M validateResponse h path hval cs [c0] n1 res1 hsite1 (by simpa using hch1)
  have hcontent : assemble res2.chunks = String.join (c0 :: cs) := by
    rw [hch2, assemble_map_some]
    rfl
  have hget := get_remote M dec h path n2 res2 hsite2
  rw [hcontent] at hget
  have hhead := decodeHead_of_numericFit
    (resourceHead_numericFit M n2.world.header res2 (String.join (c0 :: cs)))
  have hrun : h.putPatchGet (remote M) validateResponse dec path c0 cs mimeType charset n =
      (h.get (remote M) dec path 0 0 "" 0 n2).1 := by
    simp only [WTTPHandler.putPatchGet, hput, hval]
    have hp : h.patchAll (remote M) validateResponse path cs 1 n1 = (Except.ok (), n2) := hpatch
    simp only [hp]
  rw [hrun, hget, processResponse_rawGet dec _ _ _ hhead]
  have hcode : (resourceHead M n2.world.header 200 res2 (String.join (c0 :: cs))).decoded.responseLine.code
      = 200 := decimalValue_repr 200
  have hmt : (resourceHead M n2.world.header 200 res2 (String.join (c0 :: cs))).mimeType
      ∈ textBasedTypes := by
    show res2.mimeType ∈ textBasedTypes
    rw [hm2, hm1]; exact hmime
  have hcs : (resourceHead M n2.world.header 200 res2 (String.join (c0 :: cs))).charset = charset := by
    show res2.charset = charset
    rw [hc2, hc1]
  by_cases hw : M.wire (String.join (c0 :: cs)) = ""
  · rw [if_neg (by simp [hw])]
    exact ⟨_, rfl, hcode, by rw [hw, hempty _ hw]⟩
  · rw [if_pos ⟨Or.inl hcode, hmt, hw⟩, hcs, hdec]
    exact ⟨_, rfl, hcode, rfl⟩

theorem put_patch_get_roundtrip_witness :
    "TEXT_HTML" ∈ textBasedTypes ∧
      rejectNull markerSerialisation.accepted = Except.ok () ∧
      (∀ s, dropMarker (markerSerialisation.wire s) "UTF_8" = Except.ok s) ∧
      (∀ s, markerSerialisation.wire s = "" → s = "") ∧
      ∃ g, (WTTPHandler.new { address := "0xwttp", abi := "abi", signer := { address := "0xme" } }
              "0xsite" "abi" { address := "0xme" }).putPatchGet (remote markerSerialisation)
            rejectNull dropMarker "/a.html" "AB" ["CD", "EF"] "TEXT_HTML" "UTF_8"
            { world := emptyWorld, log := [] } = Except.ok g ∧
        g.head.responseLine.code = 200 ∧ g.body = String.join ["AB", "CD", "EF"] :=
  ⟨by decide, rfl, fun s => dropMarker_markerWire s "UTF_8", markerWire_ne_empty,
    put_patch_get_roundtrip markerSerialisation rejectNull dropMarker
      { address := "0xwttp", abi := "abi", signer := { address := "0xme" } }
      "0xsite" "abi" { address := "0xme" } "/a.html" "AB" ["CD", "EF"] "TEXT_HTML" "UTF_8"
      { world := emptyWorld, log := [] } (by decide) rfl
      (fun s => dropMarker_markerWire s "UTF_8") markerWire_ne_empty⟩

end WTTP
